import Mathlib

/-!
Verification of the VADER sentiment UI analysis pipeline (`vader_ui.py`).

The embedding models Python strings as `List Char` (a Python `str` is a
sequence of Unicode code points), Python floats carried through the pipeline
as rationals, and the external VADER scoring oracle
(`SentimentIntensityAnalyzer.polarity_scores`) as a parameter of type
`Str → Option SentimentScores`, where `none` models the oracle raising an
exception (caught by the `try`/`except` wrapper of `analyze_text` and
`analyze_url`).
-/

set_option autoImplicit false

namespace VaderUI

/-- A Python string, modelled as its sequence of Unicode code points. -/
abbrev Str := List Char

/-- The dict returned by `SentimentIntensityAnalyzer.polarity_scores`:
fields `compound`, `pos`, `neu`, `neg`. -/
structure SentimentScores where
  compound : ℚ
  pos : ℚ
  neu : ℚ
  neg : ℚ
deriving DecidableEq, Repr

/-- The scoring oracle: `analyzer.polarity_scores`. `none` models the call
raising an exception. -/
abbrev Oracle := Str → Option SentimentScores

/-- Python `str.strip()`: remove leading and trailing whitespace. -/
def pyStrip (l : Str) : Str :=
  ((l.dropWhile Char.isWhitespace).reverse.dropWhile Char.isWhitespace).reverse

/-- Python `text.split(chr(10))`: split on every newline character, keeping
empty pieces; the empty string yields one empty piece. -/
def splitNl : Str → List Str
  | [] => [[]]
  | c :: cs =>
    if c = '\n' then [] :: splitNl cs
    else
      match splitNl cs with
      | [] => [[c]]
      | p :: ps => (c :: p) :: ps

/-- Python `line.split(sep)` for the two-character separator of two spaces:
greedy left-to-right scan splitting at each non-overlapping occurrence. -/
def splitDoubleSpace : Str → List Str
  | [] => [[]]
  | [c] => [[c]]
  | a :: b :: rest =>
    if a = ' ' ∧ b = ' ' then [] :: splitDoubleSpace rest
    else
      match splitDoubleSpace (b :: rest) with
      | [] => [[a]]
      | p :: ps => (a :: p) :: ps

/-- Python `sep.join(pieces)` for the single-space separator. -/
def joinSpace : List Str → Str
  | [] => []
  | [c] => c
  | c :: c2 :: cs => c ++ [' '] ++ joinSpace (c2 :: cs)

/-- Python `text.splitlines()`, with line boundaries modelled as the newline
character: like `splitNl` but with no empty final piece after a trailing
newline, and the empty string yields no pieces. -/
def pySplitlines (s : Str) : List Str :=
  if s = [] then []
  else if s.getLast? = some '\n' then (splitNl s).dropLast
  else splitNl s

/-- The truncation marker appended to every paragraph excerpt
(`vader_ui.py` line 58). -/
def dots : Str := ['.', '.', '.']

/-- One step (colored band) of the plotly gauge. -/
structure GaugeStep where
  lo : ℚ
  hi : ℚ
  color : String
deriving DecidableEq, Repr

/-- The plotly gauge figure, reduced to the data the pipeline sets:
the indicator value, the axis range and the colored steps
(`vader_ui.py` lines 18-32). -/
structure Gauge where
  value : ℚ
  axisLo : ℚ
  axisHi : ℚ
  steps : List GaugeStep
deriving DecidableEq, Repr

/-- `fig_gauge` as built by `analyze_text`: value is the document compound
score, axis range `[-1, 1]`, bands red `[-1, -0.05]`, gray `[-0.05, 0.05]`,
green `[0.05, 1]`. -/
def mkGauge (c : ℚ) : Gauge :=
  { value := c
    axisLo := -1
    axisHi := 1
    steps := [⟨-1, -(5/100), "red"⟩, ⟨-(5/100), 5/100, "gray"⟩, ⟨5/100, 1, "green"⟩] }

/-- One row of the sentiment distribution bar chart. -/
structure DistRow where
  sentiment : String
  score : ℚ
deriving DecidableEq, Repr

/-- The distribution bar chart data (`vader_ui.py` lines 35-48): three rows,
fixed order Positive, Neutral, Negative, with the document scores. -/
def mkDistribution (s : SentimentScores) : List DistRow :=
  [⟨"Positive", s.pos⟩, ⟨"Neutral", s.neu⟩, ⟨"Negative", s.neg⟩]

/-- One row of the paragraph analysis table (`vader_ui.py` lines 56-60). -/
structure ParagraphRow where
  paragraph : String
  text : Str
  compoundScore : ℚ
deriving DecidableEq, Repr

/-- The paragraph analysis DataFrame: its column names and rows. -/
structure ParagraphTable where
  columns : List String
  rows : List ParagraphRow
deriving DecidableEq, Repr

/-- The three column names of the paragraph table. -/
def tableColumns : List String := ["Paragraph", "Text", "Compound Score"]

/-- `vader_ui.py` line 51:
`paragraphs = [p.strip() for p in text.split(chr(10)) if len(p.strip()) > 50]`. -/
def paragraphsOf (text : Str) : List Str :=
  (splitNl text).filterMap
    (fun p => if 50 < (pyStrip p).length then some (pyStrip p) else none)

/-- The loop of `vader_ui.py` lines 54-60: for each paragraph (1-based index
`i`) score it and build a row whose text is the first 100 characters plus the
marker; an oracle exception (`none`) aborts the whole computation. -/
def buildRows (oracle : Oracle) : Nat → List Str → Option (List ParagraphRow)
  | _, [] => some []
  | i, p :: ps =>
    match oracle p with
    | none => none
    | some s =>
      match buildRows oracle (i + 1) ps with
      | none => none
      | some rest =>
        some ({ paragraph := "Paragraph " ++ toString i
                text := p.take 100 ++ dots
                compoundScore := s.compound } :: rest)

/-- The body of `analyze_text` (`vader_ui.py` lines 10-65) before the
`except` clause: `none` models an exception escaping the body. -/
def analyzeTextBody (oracle : Oracle) (text : Str) :
    Option (Gauge × List DistRow × ParagraphTable) :=
  match oracle text with
  | none => none
  | some scores =>
    match buildRows oracle 1 ((paragraphsOf text).take 5) with
    | none => none
    | some rows =>
      some (mkGauge scores.compound, mkDistribution scores,
            { columns := tableColumns, rows := rows })

/-- `analyze_text` (`vader_ui.py` lines 9-67): returns the three artifacts,
or `(None, None, None)` when an exception was caught. -/
def analyze_text (oracle : Oracle) (text : Str) :
    Option Gauge × Option (List DistRow) × Option ParagraphTable :=
  match analyzeTextBody oracle text with
  | some (g, d, t) => (some g, some d, some t)
  | none => (none, none, none)

/-- The classification rule of `test_vader.py` lines 24-31. -/
def classify (compound : ℚ) : String :=
  if compound ≥ 5/100 then "Positive"
  else if compound ≤ -(5/100) then "Negative"
  else "Neutral"

/-- `c` falls in the band of gauge `g` colored `color`. -/
def inBand (g : Gauge) (color : String) (c : ℚ) : Prop :=
  ∃ s ∈ g.steps, s.color = color ∧ s.lo ≤ c ∧ c ≤ s.hi

/-- Modelled from the spec: the parsed HTML document tree produced by
`BeautifulSoup(response.text, parser)` — the parser itself is an external
library not present in the repository, so the model starts from the tree:
a node is a text fragment or an element with a tag and children. -/
inductive HtmlNode where
  | text : Str → HtmlNode
  | elem : String → List HtmlNode → HtmlNode

mutual

/-- `script.decompose()` applied to every `script` and `style` element
(`vader_ui.py` lines 77-78): removing such an element removes its whole
subtree; `none` means the node was removed. -/
def decomposeNode : HtmlNode → Option HtmlNode
  | .text s => some (.text s)
  | .elem tag cs =>
    if tag = "script" ∨ tag = "style" then none
    else some (.elem tag (decomposeList cs))

/-- `decomposeNode` mapped over a list of sibling nodes. -/
def decomposeList : List HtmlNode → List HtmlNode
  | [] => []
  | n :: ns =>
    match decomposeNode n with
    | none => decomposeList ns
    | some m => m :: decomposeList ns

end

mutual

/-- `soup.get_text()` (`vader_ui.py` line 81), modelled from the spec:
concatenate all text fragments in document order. -/
def getTextNode : HtmlNode → Str
  | .text s => s
  | .elem _ cs => getTextList cs

/-- `getTextNode` concatenated over a list of sibling nodes. -/
def getTextList : List HtmlNode → Str
  | [] => []
  | n :: ns => getTextNode n ++ getTextList ns

end

mutual

/-- Replace the children of every `script` and `style` element by `f`
applied to them, leaving everything else intact: used to state that the
contents of such elements cannot influence the extracted text. -/
def replaceNode (f : List HtmlNode → List HtmlNode) : HtmlNode → HtmlNode
  | .text s => .text s
  | .elem tag cs =>
    if tag = "script" ∨ tag = "style" then .elem tag (f cs)
    else .elem tag (replaceList f cs)

/-- `replaceNode` mapped over a list of sibling nodes. -/
def replaceList (f : List HtmlNode → List HtmlNode) : List HtmlNode → List HtmlNode
  | [] => []
  | n :: ns => replaceNode f n :: replaceList f ns

end

/-- The whitespace normalization of `analyze_url` (`vader_ui.py` lines
82-84): split into lines, trim each, split each line on double spaces, trim
each fragment, and rejoin the non-empty fragments with single spaces. -/
def normalize (text : Str) : Str :=
  let lines := (pySplitlines text).map pyStrip
  let chunks := (lines.map (fun l => (splitDoubleSpace l).map pyStrip)).flatten
  joinSpace (chunks.filter (fun c => c ≠ []))

/-- `analyze_url` (`vader_ui.py` lines 69-88). The HTTP fetch is the external
network collaborator, modelled as `fetch : String → Option Str` (`none` is a
network error or a `raise_for_status` failure); `parse` is the external HTML
parser producing the document tree. -/
def analyze_url (oracle : Oracle) (fetch : String → Option Str)
    (parse : Str → List HtmlNode) (url : String) :
    Option Gauge × Option (List DistRow) × Option ParagraphTable :=
  match fetch url with
  | none => (none, none, none)
  | some body =>
    analyze_text oracle (normalize (getTextList (decomposeList (parse body))))

/-- A neutral score record: compound 0, neutral 1, others 0. -/
def neutralScores : SentimentScores := ⟨0, 0, 1, 0⟩

/-- A concrete deterministic oracle returning the neutral scores on every
input; used to instantiate theorems at concrete inputs. -/
def oracle0 : Oracle := fun _ => some neutralScores

/-- A concrete 60-character line: longer than the 50-character retention
threshold, not longer than the 100-character truncation threshold. -/
def para60 : Str := List.replicate 60 'a'

/-- A concrete 55-character line. -/
def line55 : Str := List.replicate 55 'b'

/-- Eight qualifying lines joined by newlines. -/
def eightLines : Str := List.intercalate ['\n'] (List.replicate 8 line55)

/-- `splitNl` never returns an empty list of pieces. -/
theorem splitNl_ne_nil (l : Str) : splitNl l ≠ [] := by
  induction l with
  | nil => simp [splitNl]
  | cons c cs ih =>
    by_cases hc : c = '\n'
    · simp [splitNl, hc]
    · simp only [splitNl, if_neg hc]
      cases h : splitNl cs <;> simp

/-- No piece produced by `splitNl` contains a newline. -/
theorem newline_not_mem_splitNl :
    ∀ (l p : Str), p ∈ splitNl l → '\n' ∉ p := by
  intro l
  induction l with
  | nil =>
    intro p hp
    simp [splitNl] at hp
    subst hp
    simp
  | cons c cs ih =>
    intro p hp
    by_cases hc : c = '\n'
    · rw [splitNl, if_pos hc] at hp
      rcases List.mem_cons.mp hp with h | h
      · subst h; simp
      · exact ih p h
    · rw [splitNl, if_neg hc] at hp
      cases hs : splitNl cs with
      | nil => exact absurd hs (splitNl_ne_nil cs)
      | cons q qs =>
        rw [hs] at hp
        rcases List.mem_cons.mp hp with h | h
        · subst h
          intro hmem
          rcases List.mem_cons.mp hmem with h1 | h1
          · exact hc h1.symm
          · exact ih q (hs ▸ List.mem_cons_self q qs) h1
        · exact ih p (hs ▸ List.mem_cons_of_mem q h)

/-- A newline-free string is a single piece for `splitNl`. -/
theorem splitNl_eq_single : ∀ (l : Str), '\n' ∉ l → splitNl l = [l]
  | [], _ => rfl
  | c :: cs, h => by
    have hc : c ≠ '\n' := fun e => h (e ▸ List.mem_cons_self c cs)
    have ih := splitNl_eq_single cs (fun m => h (List.mem_cons_of_mem c m))
    rw [splitNl, if_neg hc, ih]

/-- Every piece of `pySplitlines` is a piece of `splitNl`. -/
theorem mem_splitNl_of_mem_pySplitlines {s line : Str}
    (h : line ∈ pySplitlines s) : line ∈ splitNl s := by
  unfold pySplitlines at h
  split at h
  · simp at h
  · split at h
    · exact List.dropLast_subset _ h
    · exact h

/-- Every character of a `splitDoubleSpace` piece is a character of the
input. -/
theorem mem_of_mem_splitDoubleSpace :
    ∀ (l p : Str), p ∈ splitDoubleSpace l → ∀ a ∈ p, a ∈ l
  | [], p, hp, a, ha => by
    simp [splitDoubleSpace] at hp
    subst hp
    simp at ha
  | [c], p, hp, a, ha => by
    simp [splitDoubleSpace] at hp
    subst hp
    simpa using ha
  | x :: y :: rest, p, hp, a, ha => by
    by_cases hxy : x = ' ' ∧ y = ' '
    · rw [splitDoubleSpace, if_pos hxy] at hp
      rcases List.mem_cons.mp hp with h | h
      · subst h; simp at ha
      · have := mem_of_mem_splitDoubleSpace rest p h a ha
        exact List.mem_cons_of_mem x (List.mem_cons_of_mem y this)
    · rw [splitDoubleSpace, if_neg hxy] at hp
      cases hs : splitDoubleSpace (y :: rest) with
      | nil =>
        rw [hs] at hp
        simp at hp
        subst hp
        rcases List.mem_singleton.mp ha with h1
        rw [h1]
        exact List.mem_cons_self x (y :: rest)
      | cons q qs =>
        rw [hs] at hp
        rcases List.mem_cons.mp hp with h | h
        · subst h
          rcases List.mem_cons.mp ha with h1 | h1
          · rw [h1]; exact List.mem_cons_self x (y :: rest)
          · have hq : q ∈ splitDoubleSpace (y :: rest) :=
              hs ▸ List.mem_cons_self q qs
            exact List.mem_cons_of_mem x
              (mem_of_mem_splitDoubleSpace (y :: rest) q hq a h1)
        · have hq : p ∈ splitDoubleSpace (y :: rest) :=
            hs ▸ List.mem_cons_of_mem q h
          exact List.mem_cons_of_mem x
            (mem_of_mem_splitDoubleSpace (y :: rest) p hq a ha)

/-- Every character of a stripped string is a character of the original. -/
theorem mem_of_mem_pyStrip {l : Str} {a : Char} (h : a ∈ pyStrip l) : a ∈ l := by
  unfold pyStrip at h
  rw [List.mem_reverse] at h
  have h2 := (List.dropWhile_sublist Char.isWhitespace
    (l := (l.dropWhile Char.isWhitespace).reverse)).subset h
  rw [List.mem_reverse] at h2
  exact (List.dropWhile_sublist Char.isWhitespace (l := l)).subset h2

/-- A character of a space-joined list is a space or comes from a piece. -/
theorem mem_joinSpace :
    ∀ (ls : List Str) (a : Char), a ∈ joinSpace ls → a = ' ' ∨ ∃ p ∈ ls, a ∈ p
  | [], a, h => by simp [joinSpace] at h
  | [c], a, h => by
    right
    exact ⟨c, List.mem_singleton_self c, by simpa [joinSpace] using h⟩
  | c :: c2 :: cs, a, h => by
    rw [joinSpace] at h
    rcases List.mem_append.mp h with h1 | h1
    · rcases List.mem_append.mp h1 with h2 | h2
      · exact Or.inr ⟨c, List.mem_cons_self c (c2 :: cs), h2⟩
      · exact Or.inl (List.mem_singleton.mp h2)
    · rcases mem_joinSpace (c2 :: cs) a h1 with h2 | ⟨p, hp, hap⟩
      · exact Or.inl h2
      · exact Or.inr ⟨p, List.mem_cons_of_mem c hp, hap⟩

/-- The normalization of `analyze_url` yields a newline-free string. -/
theorem normalize_no_newline (text : Str) : '\n' ∉ normalize text := by
  intro h
  unfold normalize at h
  rcases mem_joinSpace _ _ h with h1 | ⟨p, hp, hap⟩
  · exact absurd h1 (by decide)
  · have hp1 := List.mem_of_mem_filter hp
    rcases List.mem_flatten.mp hp1 with ⟨lst, hlst, hplst⟩
    rcases List.mem_map.mp hlst with ⟨l, hl, rfl⟩
    rcases List.mem_map.mp hplst with ⟨q, hq, rfl⟩
    rcases List.mem_map.mp hl with ⟨line, hline, rfl⟩
    have h2 : '\n' ∈ q := mem_of_mem_pyStrip hap
    have h3 : '\n' ∈ pyStrip line :=
      mem_of_mem_splitDoubleSpace (pyStrip line) q hq '\n' h2
    have h4 : '\n' ∈ line := mem_of_mem_pyStrip h3
    exact newline_not_mem_splitNl text line
      (mem_splitNl_of_mem_pySplitlines hline) h4

/-- Full characterization of the rows built by the paragraph loop: one row
per paragraph, the row at position `j` carrying the 1-based label `i + j`,
the 100-character excerpt of paragraph `j` plus the marker, and the compound
score the oracle assigns to the full paragraph `j`. -/
theorem buildRows_spec (oracle : Oracle) :
    ∀ (ps : List Str) (i : Nat) (rows : List ParagraphRow),
      buildRows oracle i ps = some rows →
      rows.length = ps.length ∧
      ∀ j (hj : j < rows.length) (hp : j < ps.length),
        ∃ s, oracle (ps.get ⟨j, hp⟩) = some s ∧
          rows.get ⟨j, hj⟩ =
            { paragraph := "Paragraph " ++ toString (i + j)
              text := (ps.get ⟨j, hp⟩).take 100 ++ dots
              compoundScore := s.compound } := by
  intro ps
  induction ps with
  | nil =>
    intro i rows h
    rw [buildRows] at h
    cases h
    exact ⟨rfl, fun j hj hp => absurd hp (Nat.not_lt_zero j)⟩
  | cons p ps ih =>
    intro i rows h
    rw [buildRows] at h
    cases hop : oracle p with
    | none => rw [hop] at h; cases h
    | some s =>
      rw [hop] at h
      cases hbr : buildRows oracle (i + 1) ps with
      | none => rw [hbr] at h; cases h
      | some rest =>
        rw [hbr] at h
        cases h
        obtain ⟨hlen, hrec⟩ := ih (i + 1) rest hbr
        refine ⟨by simpa using hlen, ?_⟩
        intro j hj hp
        cases j with
        | zero => exact ⟨s, hop, rfl⟩
        | succ j =>
          obtain ⟨s2, ho2, he2⟩ :=
            hrec j (Nat.lt_of_succ_lt_succ hj) (Nat.lt_of_succ_lt_succ hp)
          refine ⟨s2, ho2, ?_⟩
          have harith : i + 1 + j = i + (j + 1) := by omega
          rw [List.get_cons_succ, he2, harith]
          rfl

/-- Success shape of `analyze_text`: when all three artifacts are present
they are the gauge of the document compound, the document distribution, and
the table over the first five qualifying paragraphs. -/
theorem analyze_text_some {oracle : Oracle} {text : Str} {g : Gauge}
    {d : List DistRow} {t : ParagraphTable}
    (h : analyze_text oracle text = (some g, some d, some t)) :
    ∃ s rows, oracle text = some s ∧
      buildRows oracle 1 ((paragraphsOf text).take 5) = some rows ∧
      g = mkGauge s.compound ∧ d = mkDistribution s ∧
      t = ⟨tableColumns, rows⟩ := by
  unfold analyze_text analyzeTextBody at h
  cases hs : oracle text with
  | none => rw [hs] at h; cases h
  | some s =>
    rw [hs] at h
    cases hb : buildRows oracle 1 ((paragraphsOf text).take 5) with
    | none => rw [hb] at h; cases h
    | some rows =>
      rw [hb] at h
      injection h with h1 h23
      injection h23 with h2 h3
      exact ⟨s, rows, rfl, rfl,
        (Option.some.inj h1).symm, (Option.some.inj h2).symm,
        (Option.some.inj h3).symm⟩

/-- Converse direction: a successful oracle call and a successful paragraph
loop produce the three concrete artifacts. -/
theorem analyze_text_eq {oracle : Oracle} {s : SentimentScores} (text : Str)
    (hs : oracle text = some s) {rows : List ParagraphRow}
    (hb : buildRows oracle 1 ((paragraphsOf text).take 5) = some rows) :
    analyze_text oracle text =
      (some (mkGauge s.compound), some (mkDistribution s),
       some ⟨tableColumns, rows⟩) := by
  unfold analyze_text analyzeTextBody
  rw [hs, hb]

/-- Claim C2: each of `analyze_text` and `analyze_url` returns either all
three output artifacts present or all three simultaneously absent, never a
mix, and no exception escapes to the caller. -/
theorem claim_C2 :
    (∀ (oracle : Oracle) (text : Str),
      (∃ g d t, analyze_text oracle text = (some g, some d, some t)) ∨
      analyze_text oracle text = (none, none, none)) ∧
    (∀ (oracle : Oracle) (fetch : String → Option Str)
      (parse : Str → List HtmlNode) (url : String),
      (∃ g d t, analyze_url oracle fetch parse url = (some g, some d, some t)) ∨
      analyze_url oracle fetch parse url = (none, none, none)) := by
  have htext : ∀ (oracle : Oracle) (text : Str),
      (∃ g d t, analyze_text oracle text = (some g, some d, some t)) ∨
      analyze_text oracle text = (none, none, none) := by
    intro oracle text
    unfold analyze_text
    cases analyzeTextBody oracle text with
    | none => exact Or.inr rfl
    | some v =>
      obtain ⟨g, d, t⟩ := v
      exact Or.inl ⟨g, d, t, rfl⟩
  refine ⟨htext, ?_⟩
  intro oracle fetch parse url
  unfold analyze_url
  cases fetch url with
  | none => exact Or.inr rfl
  | some body => exact htext oracle _

/-- Claim C4: a line of the input is retained as a paragraph if and only if
its trimmed length strictly exceeds 50 characters; with no qualifying line
and a successful oracle call the result is present with a zero-row table
that still has the three named columns. -/
theorem claim_C4 (oracle : Oracle) (text : Str) :
    (∀ line ∈ splitNl text,
      (pyStrip line ∈ paragraphsOf text ↔ 50 < (pyStrip line).length)) ∧
    ((∀ line ∈ splitNl text, (pyStrip line).length ≤ 50) →
      ∀ s, oracle text = some s →
        analyze_text oracle text =
          (some (mkGauge s.compound), some (mkDistribution s),
           some ⟨tableColumns, []⟩)) := by
  constructor
  · intro line hline
    constructor
    · intro hmem
      rcases List.mem_filterMap.mp hmem with ⟨a, _, hfa⟩
      by_cases hla : 50 < (pyStrip a).length
      · rw [if_pos hla] at hfa
        rw [← Option.some.inj hfa]
        exact hla
      · rw [if_neg hla] at hfa
        cases hfa
    · intro hlen
      exact List.mem_filterMap.mpr ⟨line, hline, if_pos hlen⟩
  · intro hshort s hs
    have hnil : paragraphsOf text = [] := by
      unfold paragraphsOf
      rw [List.filterMap_eq_nil_iff]
      intro a ha
      rw [if_neg (Nat.not_lt.mpr (hshort a ha))]
    have hb : buildRows oracle 1 ((paragraphsOf text).take 5) = some [] := by
      rw [hnil]
      rfl
    exact analyze_text_eq text hs hb

/-- Claim C5: at most the first five qualifying paragraphs are retained, in
original order, labeled with contiguous 1-based indices. -/
theorem claim_C5 (oracle : Oracle) (text : Str) (g : Gauge)
    (d : List DistRow) (t : ParagraphTable)
    (h : analyze_text oracle text = (some g, some d, some t)) :
    t.rows.length = min (paragraphsOf text).length 5 ∧
    ∀ j (hj : j < t.rows.length),
      ∃ hp : j < (paragraphsOf text).length,
        (t.rows.get ⟨j, hj⟩).paragraph = "Paragraph " ++ toString (j + 1) ∧
        (t.rows.get ⟨j, hj⟩).text =
          ((paragraphsOf text).get ⟨j, hp⟩).take 100 ++ dots := by
  obtain ⟨s, rows, hs, hb, hg, hd, ht⟩ := analyze_text_some h
  subst ht
  obtain ⟨hlen, hrec⟩ := buildRows_spec oracle _ 1 rows hb
  have hlen5 : rows.length = min (paragraphsOf text).length 5 := by
    rw [hlen, List.length_take]
    omega
  refine ⟨hlen5, ?_⟩
  intro j hj
  have hp5 : j < ((paragraphsOf text).take 5).length := hlen ▸ hj
  have hp : j < (paragraphsOf text).length := by
    rw [List.length_take] at hp5
    omega
  obtain ⟨s2, ho2, he2⟩ := hrec j hj hp5
  refine ⟨hp, ?_, ?_⟩
  · rw [he2]
    have harith : 1 + j = j + 1 := Nat.add_comm 1 j
    rw [harith]
  · rw [he2]
    have hget : ((paragraphsOf text).take 5).get ⟨j, hp5⟩ =
        (paragraphsOf text).get ⟨j, hp⟩ := by
      simp [List.get_eq_getElem]
    rw [hget]

/-- Claim C6: under the oracle contract on the empty string, analyzing the
empty string yields all three artifacts present, with document compound 0
and an empty paragraph table. -/
theorem claim_C6 (oracle : Oracle) (s : SentimentScores)
    (h : oracle [] = some s) (hc : s.compound = 0) (hpos : s.pos = 0)
    (hneu : s.neu = 1) (hneg : s.neg = 0) :
    analyze_text oracle [] =
      (some (mkGauge 0), some (mkDistribution s), some ⟨tableColumns, []⟩) := by
  have hb : buildRows oracle 1 ((paragraphsOf ([] : Str)).take 5) = some [] := rfl
  have he := analyze_text_eq [] h hb
  rw [hc] at he
  exact he

/-- Witness for C6 at the concrete neutral oracle. -/
theorem claim_C6_witness :
    (oracle0 [] = some neutralScores ∧ neutralScores.compound = 0 ∧
     neutralScores.pos = 0 ∧ neutralScores.neu = 1 ∧ neutralScores.neg = 0) ∧
    analyze_text oracle0 [] =
      (some (mkGauge 0), some (mkDistribution neutralScores),
       some ⟨tableColumns, []⟩) :=
  ⟨⟨rfl, rfl, rfl, rfl, rfl⟩, claim_C6 oracle0 neutralScores rfl rfl rfl rfl rfl⟩

/-- Claim C9: the pipeline output depends only on the extensional behavior
of the scoring oracle, so two runs with a deterministic oracle (each run
constructing its own analyzer instance) give identical artifacts. -/
theorem claim_C9 (o1 o2 : Oracle) (text : Str) (h : ∀ s, o1 s = o2 s) :
    analyze_text o1 text = analyze_text o2 text := by
  have he : o1 = o2 := funext h
  rw [he]

/-- A second concrete oracle instance, extensionally equal to `oracle0`. -/
def oracle1 : Oracle := fun _ => some ⟨0, 0, 1, 0⟩

/-- Witness for C9 on two concrete oracle instances. -/
theorem claim_C9_witness :
    (∀ s, oracle0 s = oracle1 s) ∧
    analyze_text oracle0 para60 = analyze_text oracle1 para60 :=
  ⟨fun _ => rfl, claim_C9 oracle0 oracle1 para60 (fun _ => rfl)⟩

/-- Claim C10: each table row carries the oracle compound score of the full
trimmed paragraph, while the displayed text is the truncated excerpt. -/
theorem claim_C10 (oracle : Oracle) (text : Str) (g : Gauge)
    (d : List DistRow) (t : ParagraphTable)
    (h : analyze_text oracle text = (some g, some d, some t))
    (j : Nat) (hj : j < t.rows.length) :
    ∃ hp : j < (paragraphsOf text).length, ∃ s,
      oracle ((paragraphsOf text).get ⟨j, hp⟩) = some s ∧
      (t.rows.get ⟨j, hj⟩).compoundScore = s.compound ∧
      (t.rows.get ⟨j, hj⟩).text =
        ((paragraphsOf text).get ⟨j, hp⟩).take 100 ++ dots := by
  obtain ⟨s0, rows, hs, hb, hg, hd, ht⟩ := analyze_text_some h
  subst ht
  obtain ⟨hlen, hrec⟩ := buildRows_spec oracle _ 1 rows hb
  have hp5 : j < ((paragraphsOf text).take 5).length := hlen ▸ hj
  have hp : j < (paragraphsOf text).length := by
    rw [List.length_take] at hp5
    omega
  obtain ⟨s2, ho2, he2⟩ := hrec j hj hp5
  have hget : ((paragraphsOf text).take 5).get ⟨j, hp5⟩ =
      (paragraphsOf text).get ⟨j, hp⟩ := by
    simp [List.get_eq_getElem]
  refine ⟨hp, s2, ?_, ?_, ?_⟩
  · rw [← hget]
    exact ho2
  · rw [he2]
  · rw [he2, hget]

/-- The table produced for the single 60-character paragraph `para60`. -/
def table60 : ParagraphTable :=
  ⟨tableColumns, [⟨"Paragraph 1", para60 ++ dots, 0⟩]⟩

/-- Counterexample to claim C1 as stated: `para60` is a retained paragraph
whose trimmed length is 60 ≤ 100, yet its Text excerpt is the paragraph with
the marker appended, not the paragraph unmodified (`vader_ui.py` line 58
appends the marker unconditionally). -/
theorem claim_C1_counterexample :
    pyStrip para60 = para60 ∧ para60.length ≤ 100 ∧
    analyze_text oracle0 para60 =
      (some (mkGauge 0), some (mkDistribution neutralScores), some table60) ∧
    (table60.rows.get ⟨0, by decide⟩).text ≠ para60 :=
  ⟨by decide, by decide, rfl, by decide⟩

/-- Claim C1 as amended: the Text excerpt of every retained paragraph is the
first 100 characters of the paragraph (the whole paragraph when shorter)
with the truncation marker appended unconditionally; in particular a
paragraph longer than 100 characters renders as exactly 100 characters plus
the 3-character marker. -/
theorem claim_C1_amended (oracle : Oracle) (text : Str) (g : Gauge)
    (d : List DistRow) (t : ParagraphTable)
    (h : analyze_text oracle text = (some g, some d, some t))
    (j : Nat) (hj : j < t.rows.length) :
    ∃ hp : j < (paragraphsOf text).length,
      (t.rows.get ⟨j, hj⟩).text =
        ((paragraphsOf text).get ⟨j, hp⟩).take 100 ++ dots ∧
      (100 < ((paragraphsOf text).get ⟨j, hp⟩).length →
        ((t.rows.get ⟨j, hj⟩).text).length = 103) := by
  obtain ⟨s0, rows, hs, hb, hg, hd, ht⟩ := analyze_text_some h
  subst ht
  obtain ⟨hlen, hrec⟩ := buildRows_spec oracle _ 1 rows hb
  have hp5 : j < ((paragraphsOf text).take 5).length := hlen ▸ hj
  have hp : j < (paragraphsOf text).length := by
    rw [List.length_take] at hp5
    omega
  obtain ⟨s2, ho2, he2⟩ := hrec j hj hp5
  have hget : ((paragraphsOf text).take 5).get ⟨j, hp5⟩ =
      (paragraphsOf text).get ⟨j, hp⟩ := by
    simp [List.get_eq_getElem]
  refine ⟨hp, ?_, ?_⟩
  · rw [he2, hget]
  · intro hlong
    rw [he2, hget]
    rw [List.length_append, List.length_take]
    have hd3 : dots.length = 3 := rfl
    rw [hd3]
    omega

/-- Witness for the amended C1 at the concrete 60-character paragraph. -/
theorem claim_C1_amended_witness :
    analyze_text oracle0 para60 =
      (some (mkGauge 0), some (mkDistribution neutralScores), some table60) ∧
    (0 < table60.rows.length) ∧
    ∃ hp : 0 < (paragraphsOf para60).length,
      (table60.rows.get ⟨0, by decide⟩).text =
        ((paragraphsOf para60).get ⟨0, hp⟩).take 100 ++ dots ∧
      (100 < ((paragraphsOf para60).get ⟨0, hp⟩).length →
        ((table60.rows.get ⟨0, by decide⟩).text).length = 103) :=
  ⟨rfl, by decide,
   claim_C1_amended oracle0 para60 _ _ table60 rfl 0 (by decide)⟩

/-- Claim C7: the gauge display bands coincide exactly with the
classification thresholds. -/
theorem claim_C7 (x c : ℚ) (h1 : -1 ≤ c) (h2 : c ≤ 1) :
    (5/100 ≤ c → inBand (mkGauge x) "green" c ∧ classify c = "Positive") ∧
    (c ≤ -(5/100) → inBand (mkGauge x) "red" c ∧ classify c = "Negative") ∧
    (-(5/100) < c → c < 5/100 →
      inBand (mkGauge x) "gray" c ∧ classify c = "Neutral") := by
  refine ⟨fun h => ⟨⟨⟨5/100, 1, "green"⟩, by simp [mkGauge], rfl, h, h2⟩, ?_⟩,
    fun h => ⟨⟨⟨-1, -(5/100), "red"⟩, by simp [mkGauge], rfl, h1, h⟩, ?_⟩,
    fun hlo hhi => ⟨⟨⟨-(5/100), 5/100, "gray"⟩, by simp [mkGauge], rfl,
      le_of_lt hlo, le_of_lt hhi⟩, ?_⟩⟩
  · unfold classify
    rw [if_pos (by exact h)]
  · unfold classify
    rw [if_neg (by simp; linarith), if_pos (by exact h)]
  · unfold classify
    rw [if_neg (by simp; linarith), if_neg (by simp; linarith)]

/-- Witness for C7 at the compound value 1/2. -/
theorem claim_C7_witness :
    (-1 ≤ (1/2 : ℚ) ∧ (1/2 : ℚ) ≤ 1) ∧
    ((5/100 ≤ (1/2 : ℚ) →
      inBand (mkGauge 0) "green" (1/2) ∧ classify (1/2) = "Positive") ∧
    ((1/2 : ℚ) ≤ -(5/100) →
      inBand (mkGauge 0) "red" (1/2) ∧ classify (1/2) = "Negative") ∧
    (-(5/100) < (1/2 : ℚ) → (1/2 : ℚ) < 5/100 →
      inBand (mkGauge 0) "gray" (1/2) ∧ classify (1/2) = "Neutral")) :=
  ⟨⟨by norm_num, by norm_num⟩, claim_C7 0 (1/2) (by norm_num) (by norm_num)⟩

mutual

/-- Decomposition of a node is unchanged when the children of every script
and style element are replaced arbitrarily. -/
theorem decomposeNode_replaceNode (f : List HtmlNode → List HtmlNode) :
    ∀ n : HtmlNode, decomposeNode (replaceNode f n) = decomposeNode n
  | .text s => rfl
  | .elem tag cs => by
    simp only [replaceNode]
    by_cases htag : tag = "script" ∨ tag = "style"
    · rw [if_pos htag]
      simp only [decomposeNode]
      rw [if_pos htag, if_pos htag]
    · rw [if_neg htag]
      simp only [decomposeNode]
      rw [if_neg htag, if_neg htag, decomposeList_replaceList f cs]

/-- Decomposition of a node list is unchanged when the children of every
script and style element are replaced arbitrarily. -/
theorem decomposeList_replaceList (f : List HtmlNode → List HtmlNode) :
    ∀ ns : List HtmlNode, decomposeList (replaceList f ns) = decomposeList ns
  | [] => rfl
  | n :: ns => by
    rw [replaceList]
    simp only [decomposeList]
    rw [decomposeNode_replaceNode f n, decomposeList_replaceList f ns]

end

/-- The parsed tree of the HTML scenario input
`<script>ignored</script><p>Great day!</p>`. -/
def exampleSoup : List HtmlNode :=
  [.elem "script" [.text "ignored".data], .elem "p" [.text "Great day!".data]]

/-- Python substring containment (the `in` operator on strings). -/
def containsSub (needle : Str) : Str → Bool
  | [] => List.isPrefixOf needle []
  | c :: cs => List.isPrefixOf needle (c :: cs) || containsSub needle cs

/-- Claim C3: the contents of script and style elements contribute no
characters to the normalized text — replacing those contents arbitrarily
never changes the normalized text — and on the scenario document the
normalized text contains "Great day!" and excludes "ignored". -/
theorem claim_C3 :
    (∀ (f : List HtmlNode → List HtmlNode) (soup : List HtmlNode),
      normalize (getTextList (decomposeList (replaceList f soup))) =
      normalize (getTextList (decomposeList soup))) ∧
    containsSub "Great day!".data
      (normalize (getTextList (decomposeList exampleSoup))) = true ∧
    containsSub "ignored".data
      (normalize (getTextList (decomposeList exampleSoup))) = false := by
  refine ⟨fun f soup => ?_, ?_, ?_⟩
  · rw [decomposeList_replaceList f soup]
  · rfl
  · rfl

/-- Claim C8: URL-sourced text is flattened to a single newline-free line
before segmentation, so the paragraph table of a successful `analyze_url`
call has at most one row, exactly one when the trimmed flattened text
exceeds 50 characters. -/
theorem claim_C8 (oracle : Oracle) (fetch : String → Option Str)
    (parse : Str → List HtmlNode) (url : String) (body : Str)
    (hb : fetch url = some body) (g : Gauge) (d : List DistRow)
    (t : ParagraphTable)
    (h : analyze_url oracle fetch parse url = (some g, some d, some t)) :
    '\n' ∉ normalize (getTextList (decomposeList (parse body))) ∧
    t.rows.length ≤ 1 ∧
    (t.rows.length = 1 ↔
      50 < (pyStrip (normalize (getTextList (decomposeList (parse body))))).length) := by
  have hurl : analyze_url oracle fetch parse url =
      analyze_text oracle (normalize (getTextList (decomposeList (parse body)))) := by
    unfold analyze_url
    rw [hb]
  rw [hurl] at h
  have hnl : '\n' ∉ normalize (getTextList (decomposeList (parse body))) :=
    normalize_no_newline _
  have hsingle : splitNl (normalize (getTextList (decomposeList (parse body)))) =
      [normalize (getTextList (decomposeList (parse body)))] :=
    splitNl_eq_single _ hnl
  obtain ⟨s, rows, hs, hbr, hg, hd2, ht⟩ := analyze_text_some h
  subst ht
  obtain ⟨hlen, _⟩ := buildRows_spec oracle _ 1 rows hbr
  have hpara : paragraphsOf (normalize (getTextList (decomposeList (parse body)))) =
      if 50 < (pyStrip (normalize (getTextList (decomposeList (parse body))))).length
      then [pyStrip (normalize (getTextList (decomposeList (parse body))))]
      else [] := by
    unfold paragraphsOf
    rw [hsingle]
    by_cases hl : 50 <
        (pyStrip (normalize (getTextList (decomposeList (parse body))))).length
    · simp [hl]
    · simp [hl]
  refine ⟨hnl, ?_, ?_⟩
  · rw [hlen, hpara]
    by_cases hl : 50 <
        (pyStrip (normalize (getTextList (decomposeList (parse body))))).length
    · rw [if_pos hl]
      simp
    · rw [if_neg hl]
      simp
  · rw [hlen, hpara]
    by_cases hl : 50 <
        (pyStrip (normalize (getTextList (decomposeList (parse body))))).length
    · rw [if_pos hl]
      simp [hl]
    · rw [if_neg hl]
      simp [hl]

/-- A concrete fetch stub returning the scenario HTML body. -/
def fetch0 : String → Option Str :=
  fun _ => some "<script>ignored</script><p>Great day!</p>".data

/-- A concrete parse stub returning the scenario document tree. -/
def parse0 : Str → List HtmlNode := fun _ => exampleSoup

/-- Witness for C8 on the scenario document: the flattened text has 10
characters, so the table of the successful call has zero rows. -/
theorem claim_C8_witness :
    fetch0 "https://example.com" =
      some "<script>ignored</script><p>Great day!</p>".data ∧
    analyze_url oracle0 fetch0 parse0 "https://example.com" =
      (some (mkGauge 0), some (mkDistribution neutralScores),
       some ⟨tableColumns, []⟩) ∧
    ('\n' ∉ normalize (getTextList (decomposeList
        (parse0 "<script>ignored</script><p>Great day!</p>".data))) ∧
     (⟨tableColumns, []⟩ : ParagraphTable).rows.length ≤ 1 ∧
     ((⟨tableColumns, []⟩ : ParagraphTable).rows.length = 1 ↔
       50 < (pyStrip (normalize (getTextList (decomposeList
         (parse0 "<script>ignored</script><p>Great day!</p>".data))))).length)) :=
  ⟨rfl, rfl,
   claim_C8 oracle0 fetch0 parse0 "https://example.com" _ rfl _ _ _ rfl⟩

/-- Witness for C4 on a single short line: it is not retained, and the
analysis succeeds with an empty three-column table. -/
theorem claim_C4_witness :
    (pyStrip "Great day!".data ∈ paragraphsOf "Great day!".data ↔
      50 < (pyStrip "Great day!".data).length) ∧
    analyze_text oracle0 "Great day!".data =
      (some (mkGauge 0), some (mkDistribution neutralScores),
       some ⟨tableColumns, []⟩) :=
  ⟨(claim_C4 oracle0 "Great day!".data).1 "Great day!".data (by decide),
   (claim_C4 oracle0 "Great day!".data).2 (by decide) neutralScores rfl⟩

/-- The table produced for the eight 55-character lines: exactly five rows,
labeled Paragraph 1 through Paragraph 5. -/
def table8 : ParagraphTable :=
  ⟨tableColumns,
   [⟨"Paragraph 1", line55 ++ dots, 0⟩, ⟨"Paragraph 2", line55 ++ dots, 0⟩,
    ⟨"Paragraph 3", line55 ++ dots, 0⟩, ⟨"Paragraph 4", line55 ++ dots, 0⟩,
    ⟨"Paragraph 5", line55 ++ dots, 0⟩]⟩

/-- Witness for C5: eight qualifying lines yield exactly five rows. -/
theorem claim_C5_witness :
    (paragraphsOf eightLines).length = 8 ∧
    analyze_text oracle0 eightLines =
      (some (mkGauge 0), some (mkDistribution neutralScores), some table8) ∧
    (table8.rows.length = min (paragraphsOf eightLines).length 5 ∧
     ∀ j (hj : j < table8.rows.length),
       ∃ hp : j < (paragraphsOf eightLines).length,
         (table8.rows.get ⟨j, hj⟩).paragraph = "Paragraph " ++ toString (j + 1) ∧
         (table8.rows.get ⟨j, hj⟩).text =
           ((paragraphsOf eightLines).get ⟨j, hp⟩).take 100 ++ dots) :=
  ⟨by decide, rfl, claim_C5 oracle0 eightLines _ _ table8 rfl⟩

/-- Witness for C10 at the concrete 60-character paragraph. -/
theorem claim_C10_witness :
    analyze_text oracle0 para60 =
      (some (mkGauge 0), some (mkDistribution neutralScores), some table60) ∧
    ∃ hp : 0 < (paragraphsOf para60).length, ∃ s,
      oracle0 ((paragraphsOf para60).get ⟨0, hp⟩) = some s ∧
      (table60.rows.get ⟨0, by decide⟩).compoundScore = s.compound ∧
      (table60.rows.get ⟨0, by decide⟩).text =
        ((paragraphsOf para60).get ⟨0, hp⟩).take 100 ++ dots :=
  ⟨rfl, claim_C10 oracle0 para60 _ _ table60 rfl 0 (by decide)⟩

end VaderUI
